import Mathlib

set_option maxRecDepth 2000

/-!
Verification development for `video_silence_cleaner.py` (shatrix/video-silence-cutter).

The Python source is shallowly embedded below: pure helper functions become Lean
functions, the `ProcessingThread._process` pipeline becomes a function from an
explicit run environment (prober output, child-process return codes, polled
output lines, cancellation schedule) to the list of observable events it emits
(progress signals, child-process launches, terminate requests, the finished
signal).  Python floats are idealized as rationals; machine integers are `Int`.
-/

/-! ## Python string methods, modelled on character lists -/

/-- Models Python `str.strip()`: remove leading and trailing whitespace. -/
def pyStripList (cs : List Char) : List Char :=
  ((cs.dropWhile Char.isWhitespace).reverse.dropWhile Char.isWhitespace).reverse

/-- Models Python `str.strip()` on strings. -/
def pyStrip (s : String) : String :=
  String.mk (pyStripList s.toList)

/-- Split a character list at every occurrence of `sep`, keeping empty
pieces, as Python `str.split(sep)` does for a one-character separator. -/
def splitOnChar (sep : Char) : List Char → List (List Char)
  | [] => [[]]
  | x :: xs =>
    if x == sep then [] :: splitOnChar sep xs
    else
      match splitOnChar sep xs with
      | [] => [[x]]
      | h :: t => (x :: h) :: t

/-- Models Python `s.split(sep)` for a one-character separator. -/
def pySplitChar (sep : Char) (s : String) : List String :=
  (splitOnChar sep s.toList).map String.mk

/-- Split at every character satisfying `p`, keeping empty pieces. -/
def splitWhenChar (p : Char → Bool) : List Char → List (List Char)
  | [] => [[]]
  | x :: xs =>
    if p x then [] :: splitWhenChar p xs
    else
      match splitWhenChar p xs with
      | [] => [[x]]
      | h :: t => (x :: h) :: t

/-- Models the Python membership test `c in s` for a single character. -/
def pyContains (s : String) (c : Char) : Bool :=
  s.toList.any (fun x => x == c)

/-- Does `needle` occur as a contiguous run at the head of `hay`? -/
def matchesAt : List Char → List Char → Bool
  | [], _ => true
  | _ :: _, [] => false
  | a :: moreA, b :: moreB => a == b && matchesAt moreA moreB

/-- Models Python `s.startswith(pre)`. -/
def pyStartswith (s pre : String) : Bool :=
  matchesAt pre.toList s.toList

/-- Does `needle` occur as a contiguous run anywhere in `hay`? -/
def listHasSub (needle : List Char) : List Char → Bool
  | [] => needle.isEmpty
  | c :: rest => matchesAt needle (c :: rest) || listHasSub needle rest

/-- Models the Python substring test `needle in hay`. -/
def strHasSub (hay needle : String) : Bool :=
  listHasSub needle.toList hay.toList

/-- Models Python `str.lower()` on ASCII text. -/
def pyLower (s : String) : String :=
  String.mk (s.toList.map Char.toLower)

/-! ## Python numeric-string parsing (models `int(...)` and `float(...)`) -/

/-- Value of a list of decimal digit characters, most significant first
(assumes every character is a digit; empty list gives 0). -/
def natOfDigits (cs : List Char) : Nat :=
  cs.foldl (fun acc c => acc * 10 + (c.toNat - 48)) 0

/-- Parse a nonempty all-digit character list to a `Nat`; `none` otherwise. -/
def digitsToNat (cs : List Char) : Option Nat :=
  if !cs.isEmpty && cs.all Char.isDigit then some (natOfDigits cs) else none

/-- Optional sign followed by decimal digits. -/
def parseIntChars : List Char → Option Int
  | '-' :: cs => (digitsToNat cs).map (fun n => -(n : Int))
  | '+' :: cs => (digitsToNat cs).map (fun n => (n : Int))
  | cs => (digitsToNat cs).map (fun n => (n : Int))

/-- Models Python `int(s)` on the string forms produced by ffprobe: surrounding
whitespace is stripped, then an optional sign and decimal digits.  A string that
does not have this shape raises in Python; here it returns `none`. -/
def pyInt (s : String) : Option Int :=
  parseIntChars (pyStripList s.toList)

/-- Unsigned decimal literal `digits`, `digits.digits`, `digits.` or `.digits`,
as accepted by Python `float`.  The float value is idealized as a rational. -/
def parseFloatChars (cs : List Char) : Option ℚ :=
  let ip := cs.takeWhile (fun c => c ≠ '.')
  let rest := cs.dropWhile (fun c => c ≠ '.')
  match rest with
  | [] => (digitsToNat ip).map (fun n => (n : ℚ))
  | _ :: fp =>
    if (ip.isEmpty && fp.isEmpty) || !ip.all Char.isDigit || !fp.all Char.isDigit then
      none
    else
      some ((natOfDigits ip : ℚ) + (natOfDigits fp : ℚ) / (10 : ℚ) ^ fp.length)

/-- Decimal literal with an optional leading sign. -/
def parseSignedFloat : List Char → Option ℚ
  | '-' :: cs => (parseFloatChars cs).map (fun q => -q)
  | '+' :: cs => parseFloatChars cs
  | cs => parseFloatChars cs

/-- Models Python `float(s)` on plain decimal literals (the forms relevant to
this program; exponent and inf/nan forms are not modelled — every place the
program uses the parsed value it either guards it with an explicit range check
or receives it from ffprobe as a plain decimal).  A malformed string raises in
Python; here it returns `none`. -/
def pyFloat (s : String) : Option ℚ :=
  parseSignedFloat (pyStripList s.toList)

/-! ## Data model: `VideoInfo` and the parsed ffprobe payload -/

/-- Embeds the `VideoInfo` dataclass (source lines 27-38).  `fps` and
`duration` are Python floats, idealized as rationals. -/
structure VideoInfo where
  path : String
  codec : String
  width : Int
  height : Int
  fps : ℚ
  duration : ℚ
  bitrate : Int
  audio_codec : String
  is_variable_framerate : Bool
deriving Repr, DecidableEq

/-- One entry of the `streams` array of the ffprobe JSON payload; `none`
models an absent key (Python `dict.get` returning `None`/the default). -/
structure StreamInfo where
  codec_type : Option String
  codec_name : Option String
  width : Option Int
  height : Option Int
  r_frame_rate : Option String
  avg_frame_rate : Option String
deriving Repr, DecidableEq

/-- The `format` object of the ffprobe JSON payload.  ffprobe reports these
two fields as JSON strings, which the source parses with `float`/`int`. -/
structure FormatInfo where
  duration : Option String
  bit_rate : Option String
deriving Repr, DecidableEq

/-- The parsed ffprobe JSON document. -/
structure ProbeData where
  streams : List StreamInfo
  format : Option FormatInfo
deriving Repr, DecidableEq

/-- The frame-rate parser of `analyze_video` (source lines 82-87 and 90-95).
When the string contains a slash it must split into exactly two `int`-parsable
parts (Python unpacking of `map(int, ...)` raises otherwise, which the
enclosing `try` turns into a `None` result); a zero denominator yields the
default `dfl` (30 for the nominal rate, the nominal rate for the average
rate).  Without a slash the string is parsed as a float. -/
def parseRate (s : String) (dfl : ℚ) : Option ℚ :=
  if pyContains s '/' then
    match pySplitChar '/' s with
    | [a, b] =>
      match pyInt a, pyInt b with
      | some num, some den =>
        some (if den = 0 then dfl else (num : ℚ) / (den : ℚ))
      | _, _ => none
    | _ => none
  else
    pyFloat s

/-- The stream-selection loop of `analyze_video` (source lines 70-76): the
first stream whose `codec_type` is `video` and the first whose `codec_type`
is `audio`. -/
def scanStreams : List StreamInfo → Option StreamInfo → Option StreamInfo →
    Option StreamInfo × Option StreamInfo
  | [], v, a => (v, a)
  | s :: rest, v, a =>
    if s.codec_type = some "video" ∧ v = none then scanStreams rest (some s) a
    else if s.codec_type = some "audio" ∧ a = none then scanStreams rest v (some s)
    else scanStreams rest v a

/-- Embeds `analyze_video` (source lines 54-116).  `returncode` is the exit
status of the ffprobe child process; `data = none` models `json.loads`
raising on unparsable output.  Any exception inside the `try` block (a
malformed frame-rate, duration or bit-rate field) results in `none`, exactly
as the catch-all `except` does in the source. -/
def analyze_video (path : String) (returncode : Int) (data : Option ProbeData) :
    Option VideoInfo :=
  if returncode ≠ 0 then none
  else
    match data with
    | none => none
    | some d =>
      let vs := scanStreams d.streams none none
      match vs.1 with
      | none => none
      | some video_stream =>
        let fps_str := video_stream.r_frame_rate.getD "30/1"
        match parseRate fps_str 30 with
        | none => none
        | some fps =>
          let avg_fps_str := video_stream.avg_frame_rate.getD fps_str
          match parseRate avg_fps_str fps with
          | none => none
          | some avg_fps =>
            let is_vfr : Bool := decide (|fps - avg_fps| > 2)
            let format_info := d.format.getD ⟨none, none⟩
            let durParsed := match format_info.duration with
              | none => some (0 : ℚ)
              | some s => pyFloat s
            match durParsed with
            | none => none
            | some duration =>
              let brParsed := match format_info.bit_rate with
                | none => some (0 : Int)
                | some s => pyInt s
              match brParsed with
              | none => none
              | some br =>
                some {
                  path := path
                  codec := video_stream.codec_name.getD "unknown"
                  width := video_stream.width.getD 0
                  height := video_stream.height.getD 0
                  fps := fps
                  duration := duration
                  bitrate := br.fdiv 1000
                  audio_codec :=
                    match vs.2 with
                    | some audio_stream => audio_stream.codec_name.getD "unknown"
                    | none => "none"
                  is_variable_framerate := is_vfr
                }

/-! ## `needs_preprocessing` and `get_target_crf` -/

/-- The fixed problematic-codec list (source line 128). -/
def problematic_codecs : List String :=
  ["av1", "mpeg2video", "mpeg1video", "wmv3", "theora"]

/-- Embeds `needs_preprocessing` (source lines 119-132). -/
def needs_preprocessing (info : VideoInfo) : List String :=
  let issues : List String := []
  let issues :=
    if info.is_variable_framerate then
      issues ++ ["Variable frame rate detected (common in phone recordings)"]
    else issues
  let issues :=
    if pyLower info.codec ∈ problematic_codecs then
      issues ++ ["Codec \x27" ++ info.codec ++ "\x27 may cause compatibility issues"]
    else issues
  issues

/-- Embeds `get_target_crf` (source lines 135-144). -/
def get_target_crf (original_bitrate_kbps : Int) : Int :=
  if original_bitrate_kbps > 20000 then 18
  else if original_bitrate_kbps > 8000 then 20
  else if original_bitrate_kbps > 4000 then 22
  else 23

/-! ## The worker pipeline `ProcessingThread._process` -/

/-- The options dictionary collected from the UI; `none` models an absent key,
read in the source with `dict.get` and a default. -/
structure Options where
  threshold : Option Int
  margin : Option Int
  auto_fix : Option Bool
  silent_speed : Option Int
deriving Repr, DecidableEq

/-- The auto-editor executable search (source lines 229-234): the first of the
two fixed filesystem locations that exists, else the bare name. -/
def findAutoEditor (pathExists : String → Bool) : String :=
  match ["/usr/bin/auto-editor", "/usr/local/bin/auto-editor"].find? pathExists with
  | some p => p
  | none => "auto-editor"

/-- The auto-editor command construction (source lines 236-251). -/
def buildAutoEditorCmd (pathExists : String → Bool)
    (working_file output_path : String) (options : Options) : List String :=
  let cmd := [findAutoEditor pathExists, working_file, "-o", output_path]
  let threshold := options.threshold.getD 4
  let cmd :=
    if threshold ≠ 4 then
      cmd ++ ["--edit", "audio:threshold=" ++ toString threshold ++ "%"]
    else cmd
  let margin := options.margin.getD 6
  let cmd :=
    if margin ≠ 6 then cmd ++ ["--margin", toString margin ++ "f"] else cmd
  let silent_speed := options.silent_speed.getD 99999
  let cmd :=
    if silent_speed ≠ 99999 then
      cmd ++ ["--silent-speed", toString silent_speed]
    else cmd
  cmd

/-- The ffprobe command (source lines 57-62). -/
def probeCmd (path : String) : List String :=
  ["ffprobe", "-v", "quiet", "-print_format", "json", "-show_format",
   "-show_streams", path]

/-- The ffmpeg preprocessing command (source lines 196-208). -/
def ffmpegCmd (input_path : String) (crf : Int) (temp_file : String) : List String :=
  ["ffmpeg", "-y", "-i", input_path, "-c:v", "libx264", "-preset", "fast",
   "-crf", toString crf, "-c:a", "aac", "-colorspace", "bt709",
   "-color_primaries", "bt709", "-color_trc", "bt709", "-map_metadata", "-1",
   "-pix_fmt", "yuv420p", temp_file]

/-- Observable actions of the worker: a `progress` signal emission, the launch
of a child process (tool name and full argument list), a `terminate` request to
the in-flight child, and the terminal `finished` signal. -/
inductive Event where
  | progress (pct : Int) (msg : String)
  | launch (tool : String) (cmd : List String)
  | terminate
  | finished (ok : Bool) (msg : String)
deriving Repr, DecidableEq

/-- One observation of the output-polling loop (source lines 265-306): either
`select` reported the stream ready and `readline` returned `raw` while the
child was still running, or the half-second `select` timeout elapsed with the
child still running, `elapsed` seconds after the loop started.  Exhaustion of
the observation list models the child having exited (the two `break` paths). -/
inductive LoopEvent where
  | outLine (raw : String)
  | timeout (elapsed : ℚ)
deriving Repr, DecidableEq

/-- Models Python `str.split()` with no argument: split on whitespace runs,
dropping empty pieces. -/
def pyWhitespaceSplit (s : String) : List String :=
  ((splitWhenChar Char.isWhitespace s.toList).map String.mk).filter
    (fun t => t ≠ "")

/-- Models `line.replace(".", "")`. -/
def removeDots (s : String) : String :=
  String.mk (s.toList.filter (fun c => c ≠ '.'))

/-- Models Python `str.isdigit` on ASCII text: nonempty and all digits. -/
def pyIsdigit (s : String) : Bool :=
  !s.isEmpty && s.toList.all Char.isDigit

/-- The percentage extraction of source line 292-293:
`pct_str = line.split("%")[0].split()[-1] if "%" in line else line` followed by
`float(pct_str)`; an empty token list raises IndexError, swallowed by the bare
`except` (modelled as `none`). -/
def pctOf (line : String) : Option ℚ :=
  if pyContains line '%' then
    match (pyWhitespaceSplit ((pySplitChar '%' line).headD "")).getLast? with
    | none => none
    | some tok => pyFloat tok
  else
    pyFloat line

/-- The progress value derived from a parsed tool percentage (source line 295):
`40 + int(pct * 0.55)`, with the float constant 0.55 idealized as 55/100 and
Python `int` truncation written as `Int.floor` (the argument is nonnegative at
the call site). -/
def pctProgress (pct : ℚ) : Int :=
  40 + Int.floor (pct * 55 / 100)

/-- The time-based progress estimate (source line 304):
`min(95, (elapsed / max(estimated_duration, 1)) * 100)`. -/
def timePct (elapsed dur : ℚ) : ℚ :=
  min 95 ((elapsed / max dur 1) * 100)

/-- The progress value derived from the time estimate (source line 306):
`int(35 + time_pct * 0.6)`, with 0.6 idealized as 6/10 and `int` truncation
written as `Int.floor` (the argument is positive at the call site). -/
def timeProgress (time_pct : ℚ) : Int :=
  Int.floor (35 + time_pct * 6 / 10)

/-- The body of one polling-loop iteration after the cancellation check
(source lines 271-306), as a function of the observation, the current
`last_status` string and the estimated duration; returns the emitted events
and the new `last_status`. -/
def loopStep (e : LoopEvent) (lastStatus : String) (dur : ℚ) :
    List Event × String :=
  match e with
  | LoopEvent.outLine raw =>
    let line := pyStrip raw
    if line = "" then ([], lastStatus)
    else if pyStartswith line "analyze:" then
      ([Event.progress 40 "Analyzing audio for silence..."],
       "Analyzing audio for silence...")
    else if pyStartswith line "render:" || strHasSub (pyLower line) "rendering" then
      ([Event.progress 60 "Rendering edited video..."],
       "Rendering edited video...")
    else if pyContains line '%' || pyIsdigit (removeDots line) then
      match pctOf line with
      | some pct =>
        if 0 ≤ pct ∧ pct ≤ 100 then
          ([Event.progress (pctProgress pct)
             ("Processing: " ++ toString (Int.floor pct) ++ "%")], lastStatus)
        else ([], lastStatus)
      | none => ([], lastStatus)
    else ([], lastStatus)
  | LoopEvent.timeout elapsed =>
    let tp := timePct elapsed dur
    if tp > 40 then ([Event.progress (timeProgress tp) lastStatus], lastStatus)
    else ([], lastStatus)

/-- The cancellation flag is set once and never cleared; `cancelAfter = some k`
means the flag reads true at the k-th cooperative check (0-based) and at every
later one, `none` means it is never set during the run.  Checks are numbered in
the order the source performs them: 0 at function entry (line 172), 1 after the
preprocessing block (line 222), and 2, 3, ... at the successive polling-loop
iterations (line 266). -/
def cancelledAt (cancelAfter : Option Nat) (i : Nat) : Bool :=
  match cancelAfter with
  | none => false
  | some k => k ≤ i

/-- The output-polling loop (source lines 265-306).  Each iteration first
checks the cancellation flag (check number `i`); on observing it the worker
terminates the child and returns (Boolean result `true`).  Otherwise it
consumes the next observation; when observations are exhausted the child has
exited and the loop breaks (result `false`). -/
def runLoop (c : Option Nat) (dur : ℚ) : String → Nat → List LoopEvent →
    List Event × Bool
  | _, i, [] =>
    if cancelledAt c i then ([Event.terminate], true) else ([], false)
  | st, i, e :: rest =>
    if cancelledAt c i then ([Event.terminate], true)
    else
      let p := loopStep e st dur
      let r := runLoop c dur p.2 (i + 1) rest
      (p.1 ++ r.1, r.2)

/-- Everything the worker run depends on that comes from outside the program:
constructor arguments, the options bag, the outcomes of the three child
processes, the polled output observations, and the cancellation schedule. -/
structure RunEnv where
  input_path : String
  output_path : String
  temp_dir : String
  options : Options
  probe_returncode : Int
  probe_data : Option ProbeData
  ffmpeg_returncode : Int
  ffmpeg_stderr : String
  pathExists : String → Bool
  cutter_events : List LoopEvent
  cutter_returncode : Int
  cancelAfter : Option Nat

/-- Step 3 of `_process` (source lines 222-318): the cancellation check after
preprocessing, the auto-editor launch, the polling loop, and the terminal
emissions.  `acc` is the event trace accumulated so far. -/
def cutterPhase (env : RunEnv) (info : VideoInfo) (working_file : String)
    (acc : List Event) : List Event :=
  if cancelledAt env.cancelAfter 1 then acc
  else
    let acc2 := acc ++
      [Event.progress 35 "Running auto-editor...",
       Event.launch "auto-editor"
         (buildAutoEditorCmd env.pathExists working_file env.output_path
           env.options)]
    let r := runLoop env.cancelAfter info.duration "Analyzing audio..." 2
      env.cutter_events
    if r.2 then acc2 ++ r.1
    else if env.cutter_returncode ≠ 0 then
      acc2 ++ r.1 ++
        [Event.finished false "auto-editor failed. Check that the video has audio."]
    else
      acc2 ++ r.1 ++
        [Event.progress 98 "Cleaning up...",
         Event.progress 100 "Complete!",
         Event.finished true ("Video saved to:\n" ++ env.output_path)]

/-- Step 2 of `_process` (source lines 182-220): the preprocessing (re-encode)
block, run exactly when the `auto_fix` option (default true) is set. -/
def preprocessPhase (env : RunEnv) (info : VideoInfo) (acc : List Event) :
    List Event :=
  if env.options.auto_fix.getD true then
    let temp_file := env.temp_dir ++ "/preprocessed.mp4"
    let crf := get_target_crf info.bitrate
    let acc2 := acc ++
      [Event.progress 10 "Preprocessing video for compatibility...",
       Event.launch "ffmpeg" (ffmpegCmd env.input_path crf temp_file)]
    if env.ffmpeg_returncode ≠ 0 then
      acc2 ++
        [Event.finished false
          ("Preprocessing failed: " ++ env.ffmpeg_stderr.take 500)]
    else
      cutterPhase env info temp_file
        (acc2 ++ [Event.progress 30 "Preprocessing complete"])
  else
    cutterPhase env info env.input_path acc

/-- Embeds `ProcessingThread._process` (source lines 171-318) as the event
trace one run emits. -/
def processRun (env : RunEnv) : List Event :=
  if cancelledAt env.cancelAfter 0 then []
  else
    let acc := [Event.progress 5 "Analyzing video...",
                Event.launch "ffprobe" (probeCmd env.input_path)]
    match analyze_video env.input_path env.probe_returncode env.probe_data with
    | none => acc ++ [Event.finished false "Failed to analyze video file"]
    | some info => preprocessPhase env info acc

/-- The progress percentages of a trace, in emission order. -/
def progressValues (t : List Event) : List Int :=
  t.filterMap (fun e =>
    match e with
    | Event.progress p _ => some p
    | _ => none)

/-- The tools launched during a trace, in launch order. -/
def launches (t : List Event) : List String :=
  t.filterMap (fun e =>
    match e with
    | Event.launch tool _ => some tool
    | _ => none)

/-! ## Helper lemmas about the emitted progress values -/

lemma pctProgress_bounds (pct : ℚ) (h0 : 0 ≤ pct) (h1 : pct ≤ 100) :
    40 ≤ pctProgress pct ∧ pctProgress pct ≤ 95 := by
  unfold pctProgress
  constructor
  · have h : (0:ℤ) ≤ Int.floor (pct * 55 / 100) :=
      Int.floor_nonneg.mpr (by positivity)
    omega
  · have h2 : pct * 55 / 100 ≤ 55 := by
      rw [div_le_iff₀ (by norm_num : (0:ℚ) < 100)]
      linarith
    have h3 : Int.floor (pct * 55 / 100) ≤ Int.floor ((55:ℚ)) := Int.floor_mono h2
    have h4 : Int.floor ((55:ℚ)) = 55 := by norm_num
    omega

lemma timePct_le (elapsed dur : ℚ) : timePct elapsed dur ≤ 95 :=
  min_le_left _ _

lemma timeProgress_le (tp : ℚ) (h : tp ≤ 95) : timeProgress tp ≤ 92 := by
  unfold timeProgress
  have h2 : 35 + tp * 6 / 10 ≤ 92 := by
    have : tp * 6 / 10 ≤ 57 := by
      rw [div_le_iff₀ (by norm_num : (0:ℚ) < 10)]
      linarith
    linarith
  have h3 : Int.floor (35 + tp * 6 / 10) ≤ Int.floor ((92:ℚ)) := Int.floor_mono h2
  have h4 : Int.floor ((92:ℚ)) = 92 := by norm_num
  omega

lemma timeProgress_nonneg (tp : ℚ) (h : 40 < tp) : 0 ≤ timeProgress tp := by
  unfold timeProgress
  have h2 : (0:ℚ) ≤ 35 + tp * 6 / 10 := by
    have : (0:ℚ) ≤ tp * 6 / 10 := by positivity
    linarith
  exact Int.floor_nonneg.mpr h2


lemma loopStep_mem (e : LoopEvent) (st : String) (dur : ℚ) (x : Event)
    (hx : x ∈ (loopStep e st dur).1) :
    ∃ p m, x = Event.progress p m ∧ 0 ≤ p ∧ p ≤ 100 := by
  cases e with
  | outLine raw =>
    simp only [loopStep] at hx
    split at hx
    · simp at hx
    · split at hx
      · simp at hx
        exact ⟨40, _, hx, by norm_num⟩
      · split at hx
        · simp at hx
          exact ⟨60, _, hx, by norm_num⟩
        · split at hx
          · split at hx
            · rename_i pct hpct
              split at hx
              · rename_i hb
                simp at hx
                refine ⟨pctProgress pct, _, hx, ?_⟩
                have := pctProgress_bounds pct hb.1 hb.2
                omega
              · simp at hx
            · simp at hx
          · simp at hx
  | timeout elapsed =>
    simp only [loopStep] at hx
    split at hx
    · rename_i hgt
      simp at hx
      refine ⟨timeProgress (timePct elapsed dur), _, hx, ?_, ?_⟩
      · exact timeProgress_nonneg _ hgt
      · have := timeProgress_le _ (timePct_le elapsed dur)
        omega
    · simp at hx

lemma runLoop_mem (evs : List LoopEvent) (c : Option Nat) (dur : ℚ)
    (st : String) (i : Nat) (x : Event)
    (hx : x ∈ (runLoop c dur st i evs).1) :
    (∃ p m, x = Event.progress p m ∧ 0 ≤ p ∧ p ≤ 100) ∨ x = Event.terminate := by
  induction evs generalizing st i with
  | nil =>
    by_cases hc : cancelledAt c i = true <;> simp [runLoop, hc] at hx
    exact Or.inr hx
  | cons e rest ih =>
    by_cases hc : cancelledAt c i = true
    · simp [runLoop, hc] at hx
      exact Or.inr hx
    · simp [runLoop, hc] at hx
      rcases hx with hx | hx
      · exact Or.inl (loopStep_mem e st dur x hx)
      · exact ih _ _ hx

lemma runLoop_cancel_shape (evs : List LoopEvent) (c : Option Nat) (dur : ℚ)
    (st : String) (i : Nat)
    (h : (runLoop c dur st i evs).2 = true) :
    ∃ pre, (runLoop c dur st i evs).1 = pre ++ [Event.terminate] := by
  induction evs generalizing st i with
  | nil =>
    by_cases hc : cancelledAt c i = true
    · exact ⟨[], by simp [runLoop, hc]⟩
    · simp [runLoop, hc] at h
  | cons e rest ih =>
    by_cases hc : cancelledAt c i = true
    · exact ⟨[], by simp [runLoop, hc]⟩
    · simp only [runLoop, hc, if_false] at h ⊢
      obtain ⟨pre, hpre⟩ := ih _ _ h
      exact ⟨(loopStep e st dur).1 ++ pre, by simp [hpre]⟩

lemma runLoop_no_finished (evs : List LoopEvent) (c : Option Nat) (dur : ℚ)
    (st : String) (i : Nat) (ok : Bool) (m : String) :
    Event.finished ok m ∉ (runLoop c dur st i evs).1 := by
  intro hx
  rcases runLoop_mem evs c dur st i _ hx with ⟨p, m2, heq, _⟩ | heq <;> simp at heq

lemma runLoop_no_launch (evs : List LoopEvent) (c : Option Nat) (dur : ℚ)
    (st : String) (i : Nat) (tool : String) (cmd : List String) :
    Event.launch tool cmd ∉ (runLoop c dur st i evs).1 := by
  intro hx
  rcases runLoop_mem evs c dur st i _ hx with ⟨p, m2, heq, _⟩ | heq <;> simp at heq

/-! ## Normal forms of the pipeline phases -/

/-- The events `cutterPhase` appends after its accumulated trace. -/
def cutterTail (env : RunEnv) (info : VideoInfo) (wf : String) : List Event :=
  if cancelledAt env.cancelAfter 1 then []
  else
    let head := [Event.progress 35 "Running auto-editor...",
      Event.launch "auto-editor"
        (buildAutoEditorCmd env.pathExists wf env.output_path env.options)]
    let r := runLoop env.cancelAfter info.duration "Analyzing audio..." 2
      env.cutter_events
    if r.2 then head ++ r.1
    else if env.cutter_returncode ≠ 0 then
      head ++ r.1 ++
        [Event.finished false "auto-editor failed. Check that the video has audio."]
    else
      head ++ r.1 ++
        [Event.progress 98 "Cleaning up...",
         Event.progress 100 "Complete!",
         Event.finished true ("Video saved to:\n" ++ env.output_path)]

lemma cutterPhase_eq (env : RunEnv) (info : VideoInfo) (wf : String)
    (acc : List Event) :
    cutterPhase env info wf acc = acc ++ cutterTail env info wf := by
  simp only [cutterPhase, cutterTail]
  split_ifs <;> simp

/-- The events `preprocessPhase` appends after its accumulated trace. -/
def preprocessTail (env : RunEnv) (info : VideoInfo) : List Event :=
  if env.options.auto_fix.getD true then
    let temp_file := env.temp_dir ++ "/preprocessed.mp4"
    let head := [Event.progress 10 "Preprocessing video for compatibility...",
      Event.launch "ffmpeg"
        (ffmpegCmd env.input_path (get_target_crf info.bitrate) temp_file)]
    if env.ffmpeg_returncode ≠ 0 then
      head ++ [Event.finished false
        ("Preprocessing failed: " ++ env.ffmpeg_stderr.take 500)]
    else
      head ++ [Event.progress 30 "Preprocessing complete"] ++
        cutterTail env info temp_file
  else
    cutterTail env info env.input_path

lemma preprocessPhase_eq (env : RunEnv) (info : VideoInfo) (acc : List Event) :
    preprocessPhase env info acc = acc ++ preprocessTail env info := by
  simp only [preprocessPhase, preprocessTail]
  split_ifs <;> simp [cutterPhase_eq]

lemma processRun_eq (env : RunEnv) :
    processRun env =
      if cancelledAt env.cancelAfter 0 then []
      else
        match analyze_video env.input_path env.probe_returncode env.probe_data with
        | none =>
          [Event.progress 5 "Analyzing video...",
           Event.launch "ffprobe" (probeCmd env.input_path),
           Event.finished false "Failed to analyze video file"]
        | some info =>
          [Event.progress 5 "Analyzing video...",
           Event.launch "ffprobe" (probeCmd env.input_path)] ++
            preprocessTail env info := by
  unfold processRun
  split_ifs
  · rfl
  · cases analyze_video env.input_path env.probe_returncode env.probe_data
    · rfl
    · simp [preprocessPhase_eq]

lemma processRun_eq_none (env : RunEnv)
    (h0 : cancelledAt env.cancelAfter 0 = false)
    (hana : analyze_video env.input_path env.probe_returncode env.probe_data =
      none) :
    processRun env =
      [Event.progress 5 "Analyzing video...",
       Event.launch "ffprobe" (probeCmd env.input_path),
       Event.finished false "Failed to analyze video file"] := by
  rw [processRun_eq]
  simp [h0, hana]

lemma processRun_eq_some (env : RunEnv) (info : VideoInfo)
    (h0 : cancelledAt env.cancelAfter 0 = false)
    (hana : analyze_video env.input_path env.probe_returncode env.probe_data =
      some info) :
    processRun env =
      [Event.progress 5 "Analyzing video...",
       Event.launch "ffprobe" (probeCmd env.input_path)] ++
        preprocessTail env info := by
  rw [processRun_eq]
  simp [h0, hana]

lemma progressValues_append (l1 l2 : List Event) :
    progressValues (l1 ++ l2) = progressValues l1 ++ progressValues l2 := by
  simp [progressValues]

lemma launches_append (l1 l2 : List Event) :
    launches (l1 ++ l2) = launches l1 ++ launches l2 := by
  simp [launches]

lemma cutterTail_progress (env : RunEnv) (info : VideoInfo) (wf : String)
    (p : Int) (m : String) (h : Event.progress p m ∈ cutterTail env info wf) :
    0 ≤ p ∧ p ≤ 100 := by
  simp only [cutterTail] at h
  split_ifs at h
  · simp at h
  · simp at h
    rcases h with ⟨h, _⟩ | h
    · omega
    · rcases runLoop_mem _ _ _ _ _ _ h with ⟨p2, m2, heq, hb⟩ | heq
      · simp at heq
        omega
      · simp at heq
  · simp at h
    rcases h with ⟨h, _⟩ | h
    · omega
    · rcases runLoop_mem _ _ _ _ _ _ h with ⟨p2, m2, heq, hb⟩ | heq
      · simp at heq
        omega
      · simp at heq
  · simp at h
    rcases h with ⟨h, _⟩ | h | ⟨h, _⟩ | ⟨h, _⟩
    · omega
    · rcases runLoop_mem _ _ _ _ _ _ h with ⟨p2, m2, heq, hb⟩ | heq
      · simp at heq
        omega
      · simp at heq
    · omega
    · omega

lemma cutterTail_launch (env : RunEnv) (info : VideoInfo) (wf : String)
    (t : String) (c : List String)
    (h : Event.launch t c ∈ cutterTail env info wf) : t = "auto-editor" := by
  simp only [cutterTail] at h
  split_ifs at h
  · simp at h
  · simp at h
    rcases h with ⟨h, _⟩ | h
    · exact h
    · exact absurd h (runLoop_no_launch _ _ _ _ _ _ _)
  · simp at h
    rcases h with ⟨h, _⟩ | h
    · exact h
    · exact absurd h (runLoop_no_launch _ _ _ _ _ _ _)
  · simp at h
    rcases h with ⟨h, _⟩ | h
    · exact h
    · exact absurd h (runLoop_no_launch _ _ _ _ _ _ _)

lemma cutterTail_success (env : RunEnv) (info : VideoInfo) (wf : String)
    (m : String) (h : Event.finished true m ∈ cutterTail env info wf) :
    (progressValues (cutterTail env info wf)).getLast? = some 100 := by
  simp only [cutterTail] at h ⊢
  split_ifs at h ⊢
  · simp at h
  · exfalso
    simp at h
    exact absurd h (runLoop_no_finished _ _ _ _ _ _ _)
  · exfalso
    simp at h
    exact absurd h (runLoop_no_finished _ _ _ _ _ _ _)
  · have hl : progressValues
        [Event.progress 98 "Cleaning up...", Event.progress 100 "Complete!",
         Event.finished true ("Video saved to:\n" ++ env.output_path)] = [98, 100] := by
      simp [progressValues]
    rw [progressValues_append, progressValues_append, hl]
    rw [List.getLast?_append_of_ne_nil]
    all_goals simp

lemma cutterTail_cancel (env : RunEnv) (info : VideoInfo) (wf : String)
    (h1 : cancelledAt env.cancelAfter 1 = false)
    (h2 : (runLoop env.cancelAfter info.duration "Analyzing audio..." 2
      env.cutter_events).2 = true) :
    (cutterTail env info wf).getLast? = some Event.terminate ∧
      ∀ ok m, Event.finished ok m ∉ cutterTail env info wf := by
  obtain ⟨pre, hpre⟩ := runLoop_cancel_shape _ _ _ _ _ h2
  constructor
  · simp only [cutterTail, h1, h2, if_true, Bool.false_eq_true, if_false, hpre]
    rw [List.getLast?_append_of_ne_nil]
    rw [List.getLast?_append_of_ne_nil]
    all_goals simp
  · intro ok m hmem
    simp only [cutterTail, h1, h2, if_true, Bool.false_eq_true, if_false] at hmem
    simp at hmem
    exact absurd hmem (runLoop_no_finished _ _ _ _ _ _ _)

lemma preprocessTail_progress (env : RunEnv) (info : VideoInfo)
    (p : Int) (m : String)
    (h : Event.progress p m ∈ preprocessTail env info) : 0 ≤ p ∧ p ≤ 100 := by
  simp only [preprocessTail] at h
  split_ifs at h
  · simp at h
    rcases h with ⟨h, _⟩ | ⟨h, _⟩ <;> omega
  · rw [List.append_assoc, List.mem_append] at h
    rcases h with h | h
    · simp at h
      rcases h with ⟨h, _⟩ <;> omega
    · rw [List.mem_append] at h
      rcases h with h | h
      · simp at h
        rcases h with ⟨h, _⟩ <;> omega
      · exact cutterTail_progress _ _ _ _ _ h
  · exact cutterTail_progress _ _ _ _ _ h

lemma preprocessTail_launch (env : RunEnv) (info : VideoInfo)
    (t : String) (c : List String)
    (h : Event.launch t c ∈ preprocessTail env info) :
    t = "ffmpeg" ∨ t = "auto-editor" := by
  simp only [preprocessTail] at h
  split_ifs at h
  · simp at h
    exact Or.inl h.1
  · rw [List.append_assoc, List.mem_append] at h
    rcases h with h | h
    · simp at h
      exact Or.inl h.1
    · rw [List.mem_append] at h
      rcases h with h | h
      · simp at h
      · exact Or.inr (cutterTail_launch _ _ _ _ _ h)
  · exact Or.inr (cutterTail_launch _ _ _ _ _ h)

lemma preprocessTail_success (env : RunEnv) (info : VideoInfo) (m : String)
    (h : Event.finished true m ∈ preprocessTail env info) :
    (progressValues (preprocessTail env info)).getLast? = some 100 := by
  simp only [preprocessTail] at h ⊢
  split_ifs at h ⊢
  · exfalso
    simp at h
  · have hct : Event.finished true m ∈ cutterTail env info
        (env.temp_dir ++ "/preprocessed.mp4") := by
      rw [List.append_assoc, List.mem_append] at h
      rcases h with h | h
      · simp at h
      · rw [List.mem_append] at h
        rcases h with h | h
        · simp at h
        · exact h
    have hlast := cutterTail_success _ _ _ _ hct
    rw [List.append_assoc, progressValues_append]
    rw [List.getLast?_append_of_ne_nil]
    · rw [progressValues_append]
      rw [List.getLast?_append_of_ne_nil]
      · exact hlast
      · intro hemp
        rw [hemp] at hlast
        simp at hlast
    · intro hemp
      rw [progressValues_append] at hemp
      rcases List.append_eq_nil.mp hemp with ⟨_, hemp2⟩
      rw [hemp2] at hlast
      simp at hlast
  · exact cutterTail_success _ _ _ _ h

lemma preprocessTail_cancel (env : RunEnv) (info : VideoInfo)
    (h1 : cancelledAt env.cancelAfter 1 = false)
    (hff : env.options.auto_fix.getD true = true → env.ffmpeg_returncode = 0)
    (h2 : (runLoop env.cancelAfter info.duration "Analyzing audio..." 2
      env.cutter_events).2 = true) :
    (preprocessTail env info).getLast? = some Event.terminate ∧
      ∀ ok m, Event.finished ok m ∉ preprocessTail env info := by
  simp only [preprocessTail]
  split_ifs with ha hf
  · exact absurd (hff ha) hf
  · obtain ⟨hlast, hnof⟩ := cutterTail_cancel env info
      (env.temp_dir ++ "/preprocessed.mp4") h1 h2
    constructor
    · rw [List.append_assoc]
      rw [List.getLast?_append_of_ne_nil]
      · rw [List.getLast?_append_of_ne_nil]
        · exact hlast
        · intro hemp
          rw [hemp] at hlast
          simp at hlast
      · intro hemp
        rcases List.append_eq_nil.mp hemp with ⟨_, hemp2⟩
        rw [hemp2] at hlast
        simp at hlast
    · intro ok m hmem
      rw [List.append_assoc, List.mem_append] at hmem
      rcases hmem with hmem | hmem
      · simp at hmem
      · rw [List.mem_append] at hmem
        rcases hmem with hmem | hmem
        · simp at hmem
        · exact hnof ok m hmem
  · exact cutterTail_cancel env info env.input_path h1 h2

lemma mem_launches (l : List Event) (t : String) (h : t ∈ launches l) :
    ∃ c, Event.launch t c ∈ l := by
  simp only [launches, List.mem_filterMap] at h
  obtain ⟨e, he, hmatch⟩ := h
  cases e with
  | progress p m => simp at hmatch
  | launch tool cmd =>
    simp at hmatch
    subst hmatch
    exact ⟨cmd, he⟩
  | terminate => simp at hmatch
  | finished ok m => simp at hmatch

lemma preprocessTail_launch_cancelled (env : RunEnv) (info : VideoInfo)
    (t : String) (c : List String) (hc : cancelledAt env.cancelAfter 1 = true)
    (h : Event.launch t c ∈ preprocessTail env info) : t = "ffmpeg" := by
  have hct : ∀ wf, cutterTail env info wf = [] := fun wf => by
    simp [cutterTail, hc]
  simp only [preprocessTail] at h
  split_ifs at h
  · simp at h
    exact h.1
  · rw [hct] at h
    simp at h
    exact h.1
  · rw [hct] at h
    simp at h

lemma cancelledAt_mono_false (c : Option Nat) (i j : Nat) (hij : i ≤ j)
    (h : cancelledAt c j = false) : cancelledAt c i = false := by
  cases c with
  | none => rfl
  | some k =>
    simp only [cancelledAt, decide_eq_false_iff_not] at h ⊢
    omega

/-! ## The claims -/

/-- C1: `get_target_crf` returns one of exactly the four values 18, 20, 22, 23,
one per bitrate range, with the boundary behavior 20000 ↦ 20, 20001 ↦ 18,
8000 ↦ 22, 8001 ↦ 20, 4000 ↦ 23, 4001 ↦ 22. -/
theorem crf_table_spec :
    (get_target_crf 20000 = 20 ∧ get_target_crf 20001 = 18 ∧
     get_target_crf 8000 = 22 ∧ get_target_crf 8001 = 20 ∧
     get_target_crf 4000 = 23 ∧ get_target_crf 4001 = 22) ∧
    ∀ b : Int,
      (get_target_crf b = 18 ↔ 20000 < b) ∧
      (get_target_crf b = 20 ↔ 8000 < b ∧ b ≤ 20000) ∧
      (get_target_crf b = 22 ↔ 4000 < b ∧ b ≤ 8000) ∧
      (get_target_crf b = 23 ↔ b ≤ 4000) := by
  constructor
  · exact ⟨by decide, by decide, by decide, by decide, by decide, by decide⟩
  · intro b
    unfold get_target_crf
    split_ifs <;> omega

/-- A probe payload with a single video stream whose frame-rate fields are the
given options and every other field absent. -/
def fpsPayload (r a : Option String) : ProbeData :=
  ⟨[⟨some "video", none, none, none, r, a⟩], none⟩

/-- C2 counterexample: on the malformed frame-rate string `"abc"` the claim
predicts a fallback to the default frame rate (an analysis result whose `fps`
is 30); in fact the exception from `float("abc")` makes `analyze_video` return
`None`, so no frame rate is produced at all. -/
theorem fps_fallback_counterexample :
    analyze_video "clip.mp4" 0 (some (fpsPayload (some "abc") none)) = none ∧
    Option.map (fun i => i.fps)
      (analyze_video "clip.mp4" 0 (some (fpsPayload (some "abc") none))) ≠
      some 30 := by
  with_unfolding_all decide

/-- C2 (amended): for every frame-rate string of the form `"num/den"` with
integer `num` and `den` the parser computes the rational `num/den`, using the
default 30 when `den` is zero; but for a malformed frame-rate string (one the
ratio/float parser rejects) `analyze_video` fails with an empty result (`None`)
instead of falling back to a default frame rate. -/
theorem fps_ratio_parse_amended :
    (∀ (path s a b : String) (num den : Int),
      pyContains s '/' = true → pySplitChar '/' s = [a, b] →
      pyInt a = some num → pyInt b = some den →
      Option.map (fun i => i.fps)
        (analyze_video path 0 (some (fpsPayload (some s) none))) =
        some (if den = 0 then (30:ℚ) else (num : ℚ) / (den : ℚ))) ∧
    (∀ (path s : String), parseRate s 30 = none →
      analyze_video path 0 (some (fpsPayload (some s) none)) = none) := by
  constructor
  · intro path s a b num den hc hsplit ha hb
    have hp : parseRate s 30 = some (if den = 0 then (30:ℚ) else (num : ℚ) / (den : ℚ)) := by
      rcases eq_or_ne den 0 with hden | hden <;>
        simp [parseRate, hc, hsplit, ha, hb, hden]
    have hp2 : parseRate s (if den = 0 then (30:ℚ) else (num : ℚ) / (den : ℚ)) =
        some (if den = 0 then (30:ℚ) else (num : ℚ) / (den : ℚ)) := by
      rcases eq_or_ne den 0 with hden | hden <;>
        simp [parseRate, hc, hsplit, ha, hb, hden]
    simp [analyze_video, scanStreams, fpsPayload, hp, hp2]
  · intro path s h
    simp [analyze_video, scanStreams, fpsPayload, h]

/-- C2 witness: the amended theorem evaluated at the well-formed ratio
`"24000/1001"` and the malformed string `"60;1"`. -/
theorem fps_ratio_parse_amended_witness :
    Option.map (fun i => i.fps)
      (analyze_video "clip.mp4" 0 (some (fpsPayload (some "24000/1001") none))) =
      some (if (1001:Int) = 0 then (30:ℚ) else ((24000:Int) : ℚ) / ((1001:Int) : ℚ)) ∧
    analyze_video "clip.mp4" 0 (some (fpsPayload (some "60;1") none)) = none :=
  ⟨fps_ratio_parse_amended.1 "clip.mp4" "24000/1001" "24000" "1001" 24000 1001
      (by decide) (by decide) (by decide) (by decide),
   fps_ratio_parse_amended.2 "clip.mp4" "60;1" (by decide)⟩

/-- C3: whenever the nominal and average frame-rate strings parse to rationals
`f` and `a`, the `is_variable_framerate` flag of the produced `VideoInfo` is
true exactly when `|f - a| > 2`. -/
theorem vfr_flag_iff (s t : String) (f a : ℚ) (path : String)
    (hs : parseRate s 30 = some f) (ht : parseRate t f = some a) :
    Option.map (fun i => i.is_variable_framerate)
      (analyze_video path 0 (some (fpsPayload (some s) (some t)))) =
      some (decide (|f - a| > 2)) := by
  simp [analyze_video, scanStreams, fpsPayload, hs, ht]

/-- C3 witness: nominal 30 fps against average 90 fps sets the flag. -/
theorem vfr_flag_iff_witness :
    Option.map (fun i => i.is_variable_framerate)
      (analyze_video "clip2.mp4" 0
        (some (fpsPayload (some "30/1") (some "90/1")))) =
      some (decide (|(30:ℚ) - (90:ℚ)| > 2)) :=
  vfr_flag_iff "30/1" "90/1" 30 90 "clip2.mp4"
    (by with_unfolding_all decide) (by with_unfolding_all decide)

/-- C4: `needs_preprocessing` reports an issue exactly when the video is
flagged variable-frame-rate or its codec, lowercased, is in the fixed
problematic list, and reports no issue otherwise; the returned list is empty
iff neither condition holds. -/
theorem needs_preprocessing_iff : ∀ info : VideoInfo,
    (needs_preprocessing info = [] ↔
      ¬(info.is_variable_framerate = true ∨
        pyLower info.codec ∈ problematic_codecs)) ∧
    (needs_preprocessing info ≠ [] ↔
      (info.is_variable_framerate = true ∨
        pyLower info.codec ∈ problematic_codecs)) := by
  intro info
  by_cases h1 : info.is_variable_framerate = true <;>
    by_cases h2 : pyLower info.codec ∈ problematic_codecs <;>
      simp [needs_preprocessing, h1, h2]

/-- A video stream with every metadata field absent. -/
def defaultStream : StreamInfo := ⟨some "video", none, none, none, none, none⟩

/-- An audio stream with every metadata field absent. -/
def audioStreamNoName : StreamInfo := ⟨some "audio", none, none, none, none, none⟩

/-- C5: `analyze_video` fills defensive defaults for absent fields — codec
`"unknown"`, width and height 0, frame rate 30 (from the default ratio
`"30/1"`), duration 0, bitrate 0, audio codec `"unknown"` when the audio
stream has no codec name and `"none"` when there is no audio stream — and
returns `None` when the prober exits non-zero or parsing throws. -/
theorem analyze_defaults_and_failure :
    ∀ (path : String) (rc : Int) (data : Option ProbeData),
      (rc ≠ 0 → analyze_video path rc data = none) ∧
      analyze_video path rc none = none ∧
      analyze_video path 0 (some ⟨[defaultStream], none⟩) =
        some ⟨path, "unknown", 0, 0, 30, 0, 0, "none", false⟩ ∧
      analyze_video path 0 (some ⟨[defaultStream, audioStreamNoName], none⟩) =
        some ⟨path, "unknown", 0, 0, 30, 0, 0, "unknown", false⟩ := by
  intro path rc data
  refine ⟨fun h => by simp [analyze_video, h], ?_, ?_, ?_⟩
  · rcases eq_or_ne rc 0 with h | h <;> simp [analyze_video, h]
  · with_unfolding_all rfl
  · with_unfolding_all rfl

/-- C5 witness: the theorem evaluated at a non-zero exit status and at the
all-defaults payload. -/
theorem analyze_defaults_witness :
    analyze_video "clip3.mp4" 3 none = none ∧
    analyze_video "clip3.mp4" 0 (some ⟨[defaultStream], none⟩) =
      some ⟨"clip3.mp4", "unknown", 0, 0, 30, 0, 0, "none", false⟩ :=
  ⟨(analyze_defaults_and_failure "clip3.mp4" 3 none).1 (by decide),
   (analyze_defaults_and_failure "clip3.mp4" 0 none).2.2.1⟩

/-- C6: the auto-editor command starts with the executable found by probing
`/usr/bin/auto-editor` then `/usr/local/bin/auto-editor` before falling back
to the bare name; it always contains the working input path and the output
path (after `-o`), and the threshold, margin and silent-speed flags are
appended iff the corresponding option differs from its default (4, 6, 99999). -/
theorem auto_editor_cmd_spec :
    ∀ (pe : String → Bool) (wf out : String) (opts : Options),
      buildAutoEditorCmd pe wf out opts =
        [(if pe "/usr/bin/auto-editor" then "/usr/bin/auto-editor"
          else if pe "/usr/local/bin/auto-editor" then "/usr/local/bin/auto-editor"
          else "auto-editor"), wf, "-o", out] ++
        (if opts.threshold.getD 4 ≠ 4 then
          ["--edit", "audio:threshold=" ++ toString (opts.threshold.getD 4) ++ "%"]
         else []) ++
        (if opts.margin.getD 6 ≠ 6 then
          ["--margin", toString (opts.margin.getD 6) ++ "f"]
         else []) ++
        (if opts.silent_speed.getD 99999 ≠ 99999 then
          ["--silent-speed", toString (opts.silent_speed.getD 99999)]
         else []) ∧
      wf ∈ buildAutoEditorCmd pe wf out opts ∧
      out ∈ buildAutoEditorCmd pe wf out opts := by
  intro pe wf out opts
  have hfind : findAutoEditor pe =
      (if pe "/usr/bin/auto-editor" then "/usr/bin/auto-editor"
       else if pe "/usr/local/bin/auto-editor" then "/usr/local/bin/auto-editor"
       else "auto-editor") := by
    simp only [findAutoEditor, List.find?]
    cases h1 : pe "/usr/bin/auto-editor" <;>
      cases h2 : pe "/usr/local/bin/auto-editor" <;> simp [h1, h2]
  refine ⟨?_, ?_, ?_⟩
  · simp only [buildAutoEditorCmd, hfind]
    split_ifs <;> simp
  · simp only [buildAutoEditorCmd]
    split_ifs <;> simp
  · simp only [buildAutoEditorCmd]
    split_ifs <;> simp

/-- A well-behaved run: prober succeeds with an all-defaults payload, both
child processes succeed, the cutter prints its analyze and render markers and
then an increasing percentage, and cancellation never occurs. -/
def envC7good : RunEnv :=
  { input_path := "in.mp4", output_path := "out.mp4", temp_dir := "/tmp/vsc_t",
    options := ⟨none, none, none, none⟩, probe_returncode := 0,
    probe_data := some ⟨[⟨some "video", none, none, none, none, none⟩], none⟩,
    ffmpeg_returncode := 0, ffmpeg_stderr := "",
    pathExists := fun _ => false,
    cutter_events := [LoopEvent.outLine "analyze:", LoopEvent.outLine "render:",
      LoopEvent.outLine "95%"],
    cutter_returncode := 0, cancelAfter := none }

/-- Like `envC7good` but the cutter prints a low percentage after the render
marker, which maps below the render milestone of 60. -/
def envC7bad : RunEnv :=
  { input_path := "in.mp4", output_path := "out.mp4", temp_dir := "/tmp/vsc_t",
    options := ⟨none, none, none, none⟩, probe_returncode := 0,
    probe_data := some ⟨[⟨some "video", none, none, none, none, none⟩], none⟩,
    ffmpeg_returncode := 0, ffmpeg_stderr := "",
    pathExists := fun _ => false,
    cutter_events := [LoopEvent.outLine "render:", LoopEvent.outLine "10%"],
    cutter_returncode := 0, cancelAfter := none }

/-- C7 counterexample: a successful end-to-end run whose emitted progress
sequence is not non-decreasing — the cutter line `"10%"` maps to
40 + int(10 * 0.55) = 45, emitted after the render milestone 60. -/
theorem progress_monotone_counterexample :
    Event.finished true "Video saved to:\nout.mp4" ∈ processRun envC7bad ∧
    ¬ List.Chain' (· ≤ ·) (progressValues (processRun envC7bad)) := by
  constructor
  · with_unfolding_all decide
  · have h : progressValues (processRun envC7bad) =
        [5, 10, 30, 35, 60, 45, 98, 100] := by
      with_unfolding_all decide
    rw [h]
    simp [List.chain'_cons]

/-- C7 (amended): on every successful run (one emitting the success signal)
the final emitted progress value is 100; and there are successful runs with
known prober payload and cutter lines — such as `envC7good` — whose whole
progress sequence is non-decreasing.  (The sequence is not non-decreasing for
every successful run: a percentage line arriving after the render milestone
can map below 60, see the counterexample.) -/
theorem progress_final_100_amended :
    (∀ (env : RunEnv) (m : String),
      Event.finished true m ∈ processRun env →
      (progressValues (processRun env)).getLast? = some 100) ∧
    List.Chain' (· ≤ ·) (progressValues (processRun envC7good)) ∧
    Event.finished true "Video saved to:\nout.mp4" ∈ processRun envC7good := by
  refine ⟨?_, ?_, ?_⟩
  · intro env m h
    by_cases h0 : cancelledAt env.cancelAfter 0 = true
    · rw [processRun_eq, if_pos h0] at h
      simp at h
    · rw [Bool.not_eq_true] at h0
      cases hana : analyze_video env.input_path env.probe_returncode
        env.probe_data with
      | none =>
        rw [processRun_eq_none env h0 hana] at h
        simp at h
      | some info =>
        rw [processRun_eq_some env info h0 hana] at h ⊢
        simp only [List.cons_append, List.nil_append, List.mem_cons] at h
        rcases h with h | h | h
        · simp at h
        · simp at h
        · have hs := preprocessTail_success env info m h
          rw [progressValues_append]
          rw [List.getLast?_append_of_ne_nil]
          · exact hs
          · intro hemp
            rw [hemp] at hs
            simp at hs
  · have h : progressValues (processRun envC7good) =
        [5, 10, 30, 35, 40, 60, 92, 98, 100] := by
      with_unfolding_all decide
    rw [h]
    simp [List.chain'_cons]
  · with_unfolding_all decide

/-- C7 witness: the universal final-value clause applied to the concrete
successful run `envC7good`. -/
theorem progress_final_100_witness :
    (progressValues (processRun envC7good)).getLast? = some 100 :=
  progress_final_100_amended.1 envC7good "Video saved to:\nout.mp4"
    (by with_unfolding_all decide)

/-- A run whose cancellation flag is already set at the very first check. -/
def envC8first : RunEnv :=
  { input_path := "in.mp4", output_path := "out.mp4", temp_dir := "/tmp/vsc_t",
    options := ⟨none, none, none, none⟩, probe_returncode := 0,
    probe_data := some ⟨[⟨some "video", none, none, none, none, none⟩], none⟩,
    ffmpeg_returncode := 0, ffmpeg_stderr := "",
    pathExists := fun _ => false, cutter_events := [],
    cutter_returncode := 0, cancelAfter := some 0 }

/-- A run whose cancellation flag becomes set during the probe/preprocess
steps: false at check 0, true from check 1 on. -/
def envC8mid : RunEnv :=
  { input_path := "in.mp4", output_path := "out.mp4", temp_dir := "/tmp/vsc_t",
    options := ⟨none, none, none, none⟩, probe_returncode := 0,
    probe_data := some ⟨[⟨some "video", none, none, none, none, none⟩], none⟩,
    ffmpeg_returncode := 0, ffmpeg_stderr := "",
    pathExists := fun _ => false, cutter_events := [],
    cutter_returncode := 0, cancelAfter := some 1 }

/-- A run whose cancellation flag becomes set during the polling loop: checks
0, 1 and 2 read false, the loop check numbered 3 reads true. -/
def envC8loop : RunEnv :=
  { input_path := "in.mp4", output_path := "out.mp4", temp_dir := "/tmp/vsc_t",
    options := ⟨none, none, none, none⟩, probe_returncode := 0,
    probe_data := some ⟨[⟨some "video", none, none, none, none, none⟩], none⟩,
    ffmpeg_returncode := 0, ffmpeg_stderr := "",
    pathExists := fun _ => false,
    cutter_events := [LoopEvent.outLine "analyze:", LoopEvent.outLine "render:"],
    cutter_returncode := 0, cancelAfter := some 3 }

/-- The `VideoInfo` the probe of the cancellation runs produces. -/
def infoC8 : VideoInfo := ⟨"in.mp4", "unknown", 0, 0, 30, 0, 0, "none", false⟩

/-- C8 counterexample: the worker does not check the cancellation flag between
the probe and the preprocess step.  In this run the flag is set right after
the entry check (it reads true from check 1 on, i.e. before the
probe/preprocess boundary), yet the re-encoder child process is still
launched, contradicting the claim that after observing the flag at that
boundary the worker returns without launching any further external process. -/
theorem cancel_boundary_counterexample :
    cancelledAt envC8mid.cancelAfter 1 = true ∧
    "ffmpeg" ∈ launches (processRun envC8mid) := by
  constructor
  · decide
  · with_unfolding_all decide

/-- C8 (amended): cancellation is cooperative with checks at function entry
(before the probe), between the preprocess step and the cutter invocation, and
on every iteration of the polling loop — but not between probe and preprocess.
A flag set before the entry check stops the run before any emission or launch;
a flag set before the pre-cutter check prevents the cutter launch (though not
the re-encoder launch); a flag observed inside the polling loop makes the
worker ask the in-flight child to terminate and return immediately — the
terminate request is the last event, with no wait on the child and no
finished signal. -/
theorem cancel_cooperative_amended :
    (∀ env : RunEnv, cancelledAt env.cancelAfter 0 = true →
      processRun env = []) ∧
    (∀ env : RunEnv, cancelledAt env.cancelAfter 1 = true →
      "auto-editor" ∉ launches (processRun env)) ∧
    (∀ (env : RunEnv) (info : VideoInfo),
      cancelledAt env.cancelAfter 1 = false →
      analyze_video env.input_path env.probe_returncode env.probe_data =
        some info →
      (env.options.auto_fix.getD true = true → env.ffmpeg_returncode = 0) →
      (runLoop env.cancelAfter info.duration "Analyzing audio..." 2
        env.cutter_events).2 = true →
      (processRun env).getLast? = some Event.terminate ∧
        ∀ ok m, Event.finished ok m ∉ processRun env) := by
  refine ⟨?_, ?_, ?_⟩
  · intro env h
    rw [processRun_eq, if_pos h]
  · intro env h1 hmem
    by_cases h0 : cancelledAt env.cancelAfter 0 = true
    · rw [processRun_eq, if_pos h0] at hmem
      simp [launches] at hmem
    · rw [Bool.not_eq_true] at h0
      cases hana : analyze_video env.input_path env.probe_returncode
        env.probe_data with
      | none =>
        rw [processRun_eq_none env h0 hana] at hmem
        simp [launches] at hmem
      | some info =>
        rw [processRun_eq_some env info h0 hana, launches_append] at hmem
        rcases List.mem_append.mp hmem with hmem | hmem
        · simp [launches] at hmem
        · obtain ⟨c, hc⟩ := mem_launches _ _ hmem
          have := preprocessTail_launch_cancelled env info _ c h1 hc
          simp at this
  · intro env info h1 hana hff h2
    have h0 : cancelledAt env.cancelAfter 0 = false :=
      cancelledAt_mono_false env.cancelAfter 0 1 (by omega) h1
    obtain ⟨hlast, hnof⟩ := preprocessTail_cancel env info h1 hff h2
    rw [processRun_eq_some env info h0 hana]
    constructor
    · rw [List.getLast?_append_of_ne_nil]
      · exact hlast
      · intro hemp
        rw [hemp] at hlast
        simp at hlast
    · intro ok m hmem
      rcases List.mem_append.mp hmem with hmem | hmem
      · simp at hmem
      · exact hnof ok m hmem

/-- C8 witness: the amended theorem evaluated on three concrete runs — flag
set at the entry check, flag set between preprocess and cutter, and flag set
during the polling loop. -/
theorem cancel_cooperative_witness :
    processRun envC8first = [] ∧
    "auto-editor" ∉ launches (processRun envC8mid) ∧
    ((processRun envC8loop).getLast? = some Event.terminate ∧
      ∀ ok m, Event.finished ok m ∉ processRun envC8loop) :=
  ⟨cancel_cooperative_amended.1 envC8first (by decide),
   cancel_cooperative_amended.2.1 envC8mid (by decide),
   cancel_cooperative_amended.2.2 envC8loop infoC8 (by decide)
     (by with_unfolding_all decide) (fun _ => rfl)
     (by with_unfolding_all decide)⟩

/-- C9: every progress percentage the worker emits lies in [0, 100]; a parsed
tool percentage `pct` with 0 ≤ pct ≤ 100 yields `40 + int(pct * 0.55)` in
[40, 95]; and the time-based estimate `int(35 + time_pct * 0.6)` with
`time_pct` capped at 95 never exceeds 92. -/
theorem progress_range_invariant :
    (∀ (env : RunEnv) (p : Int) (m : String),
      Event.progress p m ∈ processRun env → 0 ≤ p ∧ p ≤ 100) ∧
    (∀ pct : ℚ, 0 ≤ pct → pct ≤ 100 →
      40 ≤ pctProgress pct ∧ pctProgress pct ≤ 95) ∧
    (∀ elapsed dur : ℚ,
      timePct elapsed dur ≤ 95 ∧ timeProgress (timePct elapsed dur) ≤ 92) := by
  refine ⟨?_, pctProgress_bounds, fun e d =>
    ⟨timePct_le e d, timeProgress_le _ (timePct_le e d)⟩⟩
  intro env p m h
  by_cases h0 : cancelledAt env.cancelAfter 0 = true
  · rw [processRun_eq, if_pos h0] at h
    simp at h
  · rw [Bool.not_eq_true] at h0
    cases hana : analyze_video env.input_path env.probe_returncode
      env.probe_data with
    | none =>
      rw [processRun_eq_none env h0 hana] at h
      simp at h
      rcases h with ⟨h, _⟩
      omega
    | some info =>
      rw [processRun_eq_some env info h0 hana] at h
      rcases List.mem_append.mp h with h | h
      · simp at h
        rcases h with ⟨h, _⟩
        omega
      · exact preprocessTail_progress env info p m h

/-- A plain run used to instantiate the progress-range invariant. -/
def envC9run : RunEnv :=
  { input_path := "in.mp4", output_path := "out.mp4", temp_dir := "/tmp/vsc_t",
    options := ⟨none, none, none, none⟩, probe_returncode := 0,
    probe_data := some ⟨[⟨some "video", none, none, none, none, none⟩], none⟩,
    ffmpeg_returncode := 0, ffmpeg_stderr := "",
    pathExists := fun _ => false, cutter_events := [],
    cutter_returncode := 0, cancelAfter := none }

/-- C9 witness: the invariant applied to the first emission of a concrete run
and to a concrete parsed percentage. -/
theorem progress_range_witness :
    (0 ≤ (5:Int) ∧ (5:Int) ≤ 100) ∧
    (40 ≤ pctProgress 50 ∧ pctProgress 50 ≤ 95) :=
  ⟨progress_range_invariant.1 envC9run 5 "Analyzing video..."
      (by with_unfolding_all decide),
   progress_range_invariant.2.1 50 (by norm_num) (by norm_num)⟩

/-- C10: whether the re-encode (preprocessing) step runs depends only on the
`auto_fix` option (default true when absent): for every run that passes the
probe and is not cancelled at entry, the re-encoder is launched iff `auto_fix`
is set — `needs_preprocessing` has no influence, whatever `VideoInfo` the
probe produced. -/
theorem preprocess_iff_auto_fix :
    ∀ (env : RunEnv) (info : VideoInfo),
      cancelledAt env.cancelAfter 0 = false →
      analyze_video env.input_path env.probe_returncode env.probe_data =
        some info →
      ("ffmpeg" ∈ launches (processRun env) ↔
        env.options.auto_fix.getD true = true) := by
  intro env info h0 hana
  rw [processRun_eq_some env info h0 hana, launches_append]
  constructor
  · intro hmem
    rcases List.mem_append.mp hmem with hmem | hmem
    · simp [launches] at hmem
    · by_contra haf
      rw [Bool.not_eq_true] at haf
      obtain ⟨c, hc⟩ := mem_launches _ _ hmem
      rw [show preprocessTail env info =
          cutterTail env info env.input_path from by
        simp [preprocessTail, haf]] at hc
      have := cutterTail_launch env info env.input_path _ c hc
      simp at this
  · intro haf
    refine List.mem_append.mpr (Or.inr ?_)
    simp only [preprocessTail, haf, if_true]
    split_ifs with hrc
    · simp [launches]
    · rw [launches_append, launches_append]
      simp [launches]

/-- A run with `auto_fix` explicitly disabled. -/
def envC10 : RunEnv :=
  { input_path := "in.mp4", output_path := "out.mp4", temp_dir := "/tmp/vsc_t",
    options := ⟨none, none, some false, none⟩, probe_returncode := 0,
    probe_data := some ⟨[⟨some "video", none, none, none, none, none⟩], none⟩,
    ffmpeg_returncode := 0, ffmpeg_stderr := "",
    pathExists := fun _ => false, cutter_events := [],
    cutter_returncode := 0, cancelAfter := none }

/-- The `VideoInfo` the probe of `envC10` produces: a fully compatible
constant-frame-rate video with unknown codec. -/
def infoC10 : VideoInfo := ⟨"in.mp4", "unknown", 0, 0, 30, 0, 0, "none", false⟩

/-- C10 witness: with `auto_fix` disabled the re-encoder is not launched even
though the equivalence is available for any probed video. -/
theorem preprocess_iff_auto_fix_witness :
    ("ffmpeg" ∈ launches (processRun envC10)) ↔
      (envC10.options.auto_fix.getD true = true) :=
  preprocess_iff_auto_fix envC10 infoC10 (by decide)
    (by with_unfolding_all decide)
